import Mathlib

/-!
Verification development for the `ma-plan-validator` repository.

The Python sources are shallowly embedded as executable Lean definitions:
- `convert_mapddl_to_pddl.py`: the tokenizer (`get_file_as_array`), the
  domain/problem parsers (`parse_domain`, `parse_problem`, realized as a
  step function folded over the token stream with the loop-local mutable
  variables made into explicit state), the PDDL writers
  (`write_pddl_domain`, `write_pddl_problem`) and `get_objects_of_type`.
- `ma_plan_validator.py`: `PlanConverter._convert_action`,
  `PlanConverter._get_agent_param` and the linearization loop of
  `MAPlanValidator._validate`.

Python exceptions / `sys.exit` calls are modelled by `Except String`;
fallible indexing (`xs[i]` on a too-short list) becomes an explicit
`IndexError` value.  Python `set`s whose iteration order is never
observed are modelled as insertion-ordered duplicate-free lists
(`listInsert`), Python `dict`s of lists as insertion-ordered association
lists (`dictAppend`).
-/

namespace MAPV

/-- Python set insertion: add `x` to the list-set `l` if absent. -/
def listInsert (l : List String) (x : String) : List String :=
  if x ∈ l then l else l ++ [x]

/-- Python `d.setdefault(k, []).append(v)` on an insertion-ordered dict of lists. -/
def dictAppend (d : List (String × List String)) (k v : String) :
    List (String × List String) :=
  if (d.find? (fun kv => decide (kv.1 = k))).isSome then
    d.map (fun kv => if kv.1 = k then (kv.1, kv.2 ++ [v]) else kv)
  else d ++ [(k, [v])]

/-- Python `d.get(k)` on an association list of buckets. -/
def dictGet (d : List (String × List String)) (k : String) : Option (List String) :=
  (d.find? (fun kv => decide (kv.1 = k))).map (·.2)

/-- `w.startswith(c)` for a single-character prefix, char-wise. -/
def strStartsWith (w : String) (c : Char) : Bool :=
  match w.data with
  | [] => false
  | a :: _ => a = c

/-- `w[1:]`, char-wise. -/
def strDrop1 (w : String) : String := String.mk (w.data.drop 1)

/-- `s[:-1]`, char-wise (Python slices index by characters). -/
def strDropLast (s : String) : String := String.mk s.data.dropLast

def DFILE_KEYWORDS : List String :=
  ["requirements", "types", "predicates", "action", "private", "functions", "constants"]

def DFILE_REQ_KEYWORDS : List String :=
  ["typing", "strips", "multi-agent", "unfactored-privacy"]

def PFILE_KEYWORDS : List String :=
  ["objects", "init", "goal", "private", "metric"]

/-! ## Tokenizer (`PlanningProblem._get_file_as_array`)

The source applies, per input line: truncation at the first `;`, then the
sequential replacements `\t -> ""`, `\n -> " "`, `( -> " ( "`, `) -> " ) "`.
The four replacements act on pairwise distinct single characters and none
of the replacement strings contains another pattern character, so the
sequence is realized here as one character-wise `flatMap`.  The
concatenation of all transformed lines is finally split on whitespace
(Python `str.split()`), which drops empty fields. -/

/-- `line[:line.find(";")]` when `";" in line`, else the line unchanged. -/
def commentStrip (cs : List Char) : List Char :=
  cs.takeWhile (fun c => decide (c ≠ ';'))

/-- The four sequential `str.replace` calls of the source, char-wise. -/
def charReplace (c : Char) : List Char :=
  if c = '\t' then []
  else if c = '\n' then [' ']
  else if c = '(' then [' ', '(', ' ']
  else if c = ')' then [' ', ')', ' ']
  else [c]

def lineTransform (line : List Char) : List Char :=
  (commentStrip line).flatMap charReplace

/-- Python `str.split()`: split on whitespace runs, dropping empty fields.
`acc` holds the characters of the token currently being read, reversed. -/
def splitWSAux : List Char → List Char → List String
  | [], acc => if acc = [] then [] else [String.mk acc.reverse]
  | c :: rest, acc =>
    if c.isWhitespace then
      (if acc = [] then [] else [String.mk acc.reverse]) ++ splitWSAux rest []
    else splitWSAux rest (c :: acc)

/-- `PlanningProblem._get_file_as_array`: each element of `lines` is one
line of the file, including its trailing newline character when present. -/
def get_file_as_array (lines : List String) : List String :=
  splitWSAux ((lines.map (fun l => lineTransform l.data)).flatten) []

/-! ## Data classes of `convert_mapddl_to_pddl.py` -/

/-- The argument list of the generalized `Predicate`: `args` is a list of
`[var, type]` pairs when `is_typed` holds, and a list of bare names
otherwise (the `is_typed` flag of the source is the constructor). -/
inductive PredArgs where
  | typed (l : List (String × String))
  | untyped (l : List String)
deriving DecidableEq, Repr

structure Predicate where
  name : String
  args : PredArgs
  is_negated : Bool
deriving DecidableEq, Repr

/-- `Predicate.pddl_rep`. -/
def Predicate.pddl_rep (p : Predicate) : String :=
  let rep := if p.is_negated then "(not " else ""
  let rep := rep ++ (if p.name ≠ "" then "(" ++ p.name ++ " " else "(")
  let rep := rep ++ (match p.args with
    | .typed l => String.join (l.map (fun a => a.1 ++ " - " ++ a.2 ++ " "))
    | .untyped l => String.join (l.map (fun a => a ++ " ")))
  let rep := strDropLast rep
  let rep := rep ++ ")"
  if p.is_negated then rep ++ ")" else rep

structure Action where
  name : String
  parameters : Predicate
  precondition : List Predicate
  effect : List Predicate
  duration : Nat := 1
  agent : String := ""
  agent_type : String := ""
deriving DecidableEq, Repr

/-- First third of `Action.pddl_rep` (header and parameter line). -/
def actionHeadPart (a : Action) : String :=
  "(:action " ++ a.name ++ "\n" ++ "\t:parameters " ++ a.parameters.pddl_rep ++ "\n"

/-- Precondition block of `Action.pddl_rep`: the `(and` wrapper is emitted
only when the literal list has more than one element. -/
def actionPrecPart (a : Action) : String :=
  (if a.precondition.length > 1 then "\t:precondition (and\n" else "\t:precondition \n")
    ++ String.join (a.precondition.map (fun p => "\t\t" ++ p.pddl_rep ++ "\n"))
    ++ (if a.precondition.length > 1 then "\t)\n" else "")

/-- Effect block and closing parenthesis of `Action.pddl_rep`. -/
def actionEffectPart (a : Action) : String :=
  (if a.effect.length > 1 then "\t:effect (and\n" else "\t:effect \n")
    ++ String.join (a.effect.map (fun p => "\t\t" ++ p.pddl_rep ++ "\n"))
    ++ (if a.effect.length > 1 then "\t)\n" else "")
    ++ ")\n"

/-- `Action.pddl_rep`: the source builds the string by successive `+=`,
split here into its three consecutive segments. -/
def Action.pddl_rep (a : Action) : String :=
  actionHeadPart a ++ actionPrecPart a ++ actionEffectPart a

structure Function where
  obj_list : List String
deriving DecidableEq, Repr

/-- `Function.pddl_rep`. -/
def Function.pddl_rep (f : Function) : String :=
  strDropLast ("(" ++ String.join (f.obj_list.map (fun a => a ++ " "))) ++ ") - number"

structure GroundFunction where
  obj_list : List String
deriving DecidableEq, Repr

/-- `GroundFunction.pddl_rep`.  The source indexes `obj_list[0]` and
`obj_list[-1]` unconditionally; empty lists are never constructed by the
parser, and `headD`/`getLastD` supply a harmless default. -/
def GroundFunction.pddl_rep (g : GroundFunction) : String :=
  strDropLast ("(" ++ g.obj_list.headD "" ++ " ("
      ++ String.join ((g.obj_list.drop 1).dropLast.map (fun a => a ++ " ")))
    ++ ") " ++ g.obj_list.getLastD "" ++ ") "

/-! ## Plan converter (`ma_plan_validator.py`, class `PlanConverter`) -/

structure UPParameter where
  name : String
  type : String
deriving DecidableEq, Repr

structure UPAction where
  name : String
  parameters : List UPParameter
deriving DecidableEq, Repr

structure UPObject where
  name : String
  type : String
deriving DecidableEq, Repr

/-- The classical `unified_planning` problem as seen by `PlanConverter`:
name-addressable actions and objects. -/
structure UPProblem where
  actions : List UPAction
  objects : List UPObject
deriving DecidableEq, Repr

/-- `problem.object(name)`: the unified_planning lookup raises when no
object carries the name, hence the `Option`. -/
def UPProblem.object? (p : UPProblem) (n : String) : Option UPObject :=
  p.objects.find? (fun o => decide (o.name = n))

/-- A multi-agent action occurrence: `action` and `agent` are the names of
`action_instance.action` and `action_instance.agent`, `actual_parameters`
the names of the argument objects. -/
structure UPActionInstance where
  action : String
  agent : Option String
  actual_parameters : List String
deriving DecidableEq, Repr

inductive ConvErr where
  /-- `ValueError("Action instance does not have an associated agent.")` -/
  | noAgent
  /-- `ValueError(f"No matching action found for {action_name}")` -/
  | noMatch
  /-- `act_prob.parameters[0]` on an action without parameters. -/
  | indexError
  /-- `problem.object(...)` lookup failure. -/
  | objectMissing
  /-- the failed `assert agent_param.type == act_prob.parameters[0].type`. -/
  | typeMismatch
deriving DecidableEq, Repr

/-- The converted occurrence `ActionInstance(action=act_prob, params=new_params)`:
the classical action together with the names of the bound objects. -/
structure ConvertedInstance where
  action : UPAction
  params : List String
deriving DecidableEq, Repr

/-- `PlanConverter._get_agent_param`. -/
def PlanConverter.get_agent_param (problem : UPProblem) (act_prob : UPAction) :
    Except ConvErr UPObject :=
  match act_prob.parameters with
  | [] => .error .indexError
  | p0 :: _ =>
    match problem.object? p0.name with
    | none => .error .objectMissing
    | some agent_param =>
      if agent_param.type = p0.type then .ok agent_param else .error .typeMismatch

/-- `PlanConverter._convert_action`. -/
def PlanConverter.convert_action (problem : UPProblem)
    (action_instance : UPActionInstance) : Except ConvErr ConvertedInstance :=
  match action_instance.agent with
  | none => .error .noAgent
  | some ag =>
    let action_name := action_instance.action ++ "_" ++ ag
    match problem.actions.find? (fun a => decide (action_name = a.name)) with
    | none => .error .noMatch
    | some act_prob =>
      (PlanConverter.get_agent_param problem act_prob).map
        (fun agent_param => ⟨act_prob, agent_param.name :: action_instance.actual_parameters⟩)

/-! ## Linearization loop of `MAPlanValidator._validate`

`check p` abstracts the composite
`SequentialPlanValidator.validate(pddl_problem, convert(p)).status == VALID`
applied to one linearization `p` drawn from `plan.all_sequential_plans()`.
The loop starts with `is_valid_plan = True` and breaks at the first
linearization whose status differs from `VALID`.  The second component of
the result counts how many linearizations were evaluated. -/

inductive ValidationResultStatus where
  | VALID
  | INVALID
deriving DecidableEq, Repr

open ValidationResultStatus in
/-- The `for seq_plan in plan.all_sequential_plans()` loop of
`MAPlanValidator._validate` (lines 128-142). -/
def validate_loop {α : Type} (check : α → ValidationResultStatus) :
    List α → ValidationResultStatus × Nat
  | [] => (VALID, 0)
  | p :: rest =>
    if check p = VALID then
      let r := validate_loop check rest
      (r.1, r.2 + 1)
    else (INVALID, 1)

/-! ## Shared literal-list parsing (`_parse_name_type_pairs`,
`_parse_unground_proposition`, `_parse_unground_propositions`) -/

/-- The per-triple loop of `_parse_name_type_pairs` (name / `-` / known type). -/
def nameTypeTriples (types : List String) : List String → Except String (List (String × String))
  | [] => .ok []
  | a :: b :: c :: rest =>
    if b ≠ "-" then .error "Expected predicate to be typed"
    else if c ∈ types then do
      let r ← nameTypeTriples types rest
      return (a, c) :: r
    else .error ("PARSING ERROR " ++ c ++ " not in types list")
  | _ => .error "Expected predicate to be typed"

/-- `PlanningProblem._parse_name_type_pairs`. -/
def parse_name_type_pairs (array : List String) (types : List String) :
    Except String (List (String × String)) :=
  if array.length % 3 ≠ 0 then .error "Expected predicate to be typed"
  else nameTypeTriples types array

/-- `PlanningProblem._parse_unground_proposition`: `array` is one balanced
chunk `( [not (] name args... ) [)]`.  The source indexes `array[1]`
unconditionally, hence the explicit `IndexError` cases. -/
def parse_unground_proposition (array : List String) : Except String Predicate :=
  if array.length < 2 then .error "IndexError: list index out of range"
  else if (array.drop 1).headD "" = "not" then
    let arr2 := (array.drop 2).dropLast
    if arr2.length < 2 then .error "IndexError: list index out of range"
    else .ok ⟨(arr2.drop 1).headD "", .untyped ((arr2.drop 2).dropLast), true⟩
  else .ok ⟨(array.drop 1).headD "", .untyped ((array.drop 2).dropLast), false⟩

/-- The chunking loop of `_parse_unground_propositions`: split on balanced
parentheses, parsing each chunk.  A trailing unbalanced chunk is dropped,
as in the source. -/
def chunkProps : List String → Int → List String → List Predicate →
    Except String (List Predicate)
  | [], _, _, acc => .ok acc
  | w :: rest, oc, prop, acc =>
    let oc := if w = "(" then oc + 1 else oc
    let oc := if w = ")" then oc - 1 else oc
    let prop := prop ++ [w]
    if oc = 0 then do
      let p ← parse_unground_proposition prop
      chunkProps rest 0 [] (acc ++ [p])
    else chunkProps rest oc prop acc

/-- `PlanningProblem._parse_unground_propositions`. -/
def parse_unground_propositions (array : List String) : Except String (List Predicate) :=
  let array := if array.take 3 = ["(", "and", "("] then (array.drop 2).dropLast else array
  chunkProps array 0 [] []

/-! ## Domain parser (`PlanningProblem.parse_domain`)

The token-walking loop is embedded as a step function over the loop-local
mutable variables (`opencounter`, `keyword`, `obj_list`, `is_obj_list`)
together with the object fields the loop mutates.  Each Python iteration
is, in source order: the paren/keyword chain, the section-close block
(`if opencounter == 0`), and the per-section chain. -/

structure DomSt where
  opencounter : Int
  keyword : String
  obj_list : List String
  is_obj_list : Bool
  requirements : List String
  type_list : List String
  types : List (String × List String)
  predicates : List Predicate
  functions : List Function
  constants : List (String × List String)
  actionsRaw : List (List String)
  warnings : List String
deriving DecidableEq, Repr

/-- Lines 187-195 of the source loop: paren counting and section-keyword
switching (a recognized keyword does not overwrite `requirements`). -/
def domStepChain1 (st : DomSt) (word : String) : DomSt :=
  if word = "(" then {st with opencounter := st.opencounter + 1}
  else if word = ")" then {st with opencounter := st.opencounter - 1}
  else if strStartsWith word ':' then
    if ¬ (strDrop1 word ∈ DFILE_KEYWORDS) then st
    else if st.keyword ≠ "requirements" then {st with keyword := strDrop1 word}
    else st
  else st

/-- One element of the types-section flush at section close: leftover
buffered names become direct subordinates of `object`. -/
def typesCloseOne (st : DomSt) (element : String) : DomSt :=
  {st with types := dictAppend st.types "object" element,
           type_list := listInsert (listInsert st.type_list "object") element}

/-- Lines 196-206: at nesting depth zero the current section is closed
(action buffer flushed, leftover type names seeded under `object`,
keyword register cleared). -/
def domStepClose (st : DomSt) : DomSt :=
  if st.opencounter = 0 then
    let st := if st.keyword = "action" then
        {st with actionsRaw := st.actionsRaw ++ [st.obj_list], obj_list := []}
      else st
    let st := if st.keyword = "types" then
        {(st.obj_list.foldl typesCloseOne st) with obj_list := []}
      else st
    {st with keyword := ""}
  else st

/-- One element of the types-section binding `elements - word`: an unknown
supertype is first registered under `object`. -/
def typesElemStep (word : String) (st : DomSt) (element : String) : DomSt :=
  let st := if ¬ (word ∈ st.type_list) then
      {st with types := dictAppend st.types "object" word,
               type_list := listInsert st.type_list word}
    else st
  {st with types := dictAppend st.types word element,
           type_list := listInsert (listInsert st.type_list element) word}

/-- One element of the constants-section binding: the trailing type must
already be known, else the parse aborts. -/
def constantsElemStep (word : String) (st : DomSt) (element : String) : Except String DomSt :=
  if word ∈ st.type_list then .ok {st with constants := dictAppend st.constants word element}
  else .error ("ERROR unknown type " ++ word)

/-- The close of one predicate block: a `private` buffer first drops its
three owner tokens (done by the caller); an empty buffer is skipped,
otherwise the first token is the predicate name and the rest name/`-`/type
triples. -/
def predicatesCloseStep (st : DomSt) : Except String DomSt :=
  if st.obj_list.isEmpty then .ok st
  else
    match parse_name_type_pairs (st.obj_list.drop 1) st.type_list with
    | .error e => .error e
    | .ok pred_list =>
      .ok {st with
        predicates := st.predicates ++ [⟨st.obj_list.headD "", .typed pred_list, false⟩],
        obj_list := []}

/-- Requirements section (lines 208-216): a non-`:` token is fatal, an
unknown flag only warns, a known flag is recorded. -/
def requirementsStep (st : DomSt) (word : String) : Except String DomSt :=
  if word ≠ ":requirements" then
    if ¬ strStartsWith word ':' then
      .error "PARSING ERROR: Expected requirement to start with :"
    else if ¬ (strDrop1 word ∈ DFILE_REQ_KEYWORDS) then
      .ok {st with warnings := st.warnings ++ ["WARNING: Unknown Requirement " ++ strDrop1 word]}
    else .ok {st with requirements := listInsert st.requirements (strDrop1 word)}
  else .ok st

/-- Types section (lines 220-236): buffer names until `-`, then bind them
under the following type. -/
def typesStep (st : DomSt) (word : String) : DomSt :=
  if st.is_obj_list then
    (if word = "-" then {st with is_obj_list := false}
     else {st with obj_list := st.obj_list ++ [word]})
  else
    {(st.obj_list.foldl (typesElemStep word) st) with is_obj_list := true, obj_list := []}

/-- Constants section (lines 237-253): same buffering; an unknown trailing
type is fatal. -/
def constantsStep (st : DomSt) (word : String) : Except String DomSt :=
  if st.is_obj_list then
    .ok (if word = "-" then {st with is_obj_list := false}
         else {st with obj_list := st.obj_list ++ [word]})
  else
    match st.obj_list.foldlM (constantsElemStep word) st with
    | .error e => .error e
    | .ok st' => .ok {st' with is_obj_list := true, obj_list := []}

/-- Predicates/private section (lines 254-272). -/
def predicatesStep (st : DomSt) (word : String) : Except String DomSt :=
  if word = ")" then
    predicatesCloseStep (if st.keyword = "private" then
        {st with obj_list := st.obj_list.drop 3, keyword := "predicates"}
      else st)
  else if word ≠ "(" then .ok {st with obj_list := st.obj_list ++ [word]}
  else .ok st

/-- Functions section (lines 273-281): a block beginning with `-` drops the
anonymous-function marker pair. -/
def functionsStep (st : DomSt) (word : String) : Except String DomSt :=
  if word = ")" then
    if st.obj_list.isEmpty then .error "IndexError: list index out of range"
    else
      .ok {st with
        functions := st.functions
          ++ [⟨if st.obj_list.headD "" = "-" then st.obj_list.drop 2 else st.obj_list⟩],
        obj_list := []}
  else if word ≠ "(" then .ok {st with obj_list := st.obj_list ++ [word]}
  else .ok st

/-- Lines 208-281: the per-section chain of the domain loop. -/
def domStepChain2 (st : DomSt) (word : String) : Except String DomSt :=
  if st.keyword = "requirements" then requirementsStep st word
  else if st.keyword = "action" then .ok {st with obj_list := st.obj_list ++ [word]}
  else if ¬ strStartsWith word ':' then
    if st.keyword = "types" then .ok (typesStep st word)
    else if st.keyword = "constants" then constantsStep st word
    else if st.keyword = "predicates" ∨ st.keyword = "private" then predicatesStep st word
    else if st.keyword = "functions" then functionsStep st word
    else .ok st
  else .ok st

/-- One iteration of the `parse_domain` token loop. -/
def domStep (st : DomSt) (word : String) : Except String DomSt :=
  domStepChain2 (domStepClose (domStepChain1 st word)) word

/-- The keyword-bucket dictionary built by the inner loop of the second
pass over one action body (name already stripped): a `:`-token switches
the per-action keyword, any other token is appended to the current
keyword's bucket. -/
def actionBuckets (action : List String) : List (String × List String) :=
  (action.foldl
    (fun kwd w =>
      if strStartsWith w ':' then (strDrop1 w, kwd.2)
      else (kwd.1, dictAppend kwd.2 kwd.1 w))
    ((("", []) : String × List (String × List String)))).2

/-- The second pass over one buffered action body after the leading
`- <type>` strip: name extraction, bucket walk, then agent/parameters/
precondition/effect assembly.  A missing bucket reproduces the `None`
subscription failure of the source; a too-short one its `IndexError`. -/
def processActionBody (type_list : List String) (action : List String) :
    Except String (String × Action) :=
  if action.length < 2 then .error "IndexError: list index out of range"
  else
    match dictGet (actionBuckets (action.drop 2)) "agent" with
    | none => .error "TypeError: agent bucket missing"
    | some agentBucket =>
      if agentBucket.length < 3 then .error "IndexError: list index out of range"
      else
        match parse_name_type_pairs agentBucket type_list with
        | .error e => .error e
        | .ok agent =>
          match dictGet (actionBuckets (action.drop 2)) "parameters" with
          | none => .error "TypeError: parameters bucket missing"
          | some paramsBucket =>
            match parse_name_type_pairs ((paramsBucket.drop 1).dropLast) type_list with
            | .error e => .error e
            | .ok params =>
              match dictGet (actionBuckets (action.drop 2)) "precondition" with
              | none => .error "TypeError: precondition bucket missing"
              | some preB =>
                match parse_unground_propositions preB with
                | .error e => .error e
                | .ok pre_list =>
                  match dictGet (actionBuckets (action.drop 2)) "effect" with
                  | none => .error "TypeError: effect bucket missing"
                  | some effB =>
                    match parse_unground_propositions effB with
                    | .error e => .error e
                    | .ok eff_list =>
                      .ok ((agentBucket.drop 2).headD "",
                        { name := (action.drop 1).headD "",
                          parameters := ⟨"", .typed (agent ++ params), false⟩,
                          precondition := pre_list, effect := eff_list })

/-- The second pass of `parse_domain` over one buffered action body:
returns the agent type added to `agent_types` and the built `Action`. -/
def processAction (type_list : List String) (action : List String) :
    Except String (String × Action) :=
  if action.isEmpty then .error "IndexError: list index out of range"
  else processActionBody type_list
    (if action.headD "" = "-" then action.drop 2 else action)

/-- The fields of the `PlanningProblem` object that `parse_domain` fills. -/
structure DomainResult where
  domain : String
  requirements : List String
  type_list : List String
  types : List (String × List String)
  predicates : List Predicate
  functions : List Function
  constants : List (String × List String)
  actions : List Action
  agent_types : List String
  warnings : List String
deriving DecidableEq, Repr

def initDomSt : DomSt :=
  { opencounter := 0, keyword := "", obj_list := [], is_obj_list := true,
    requirements := [], type_list := ["object"], types := [], predicates := [],
    functions := [], constants := [], actionsRaw := [], warnings := [] }

/-- One step of the second pass over the buffered action bodies. -/
def actionFoldStep (type_list : List String) (acc : List String × List Action)
    (a : List String) : Except String (List String × List Action) :=
  match processAction type_list a with
  | .error e => .error e
  | .ok (agentT, act) => .ok (listInsert acc.1 agentT, acc.2 ++ [act])

/-- `PlanningProblem.parse_domain` over an already-tokenized file. -/
def parse_domain (tokens : List String) : Except String DomainResult :=
  if tokens.take 4 ≠ ["(", "define", "(", "domain"] then
    .error "PARSING ERROR: Expected (define (domain ... at start of domain file"
  else if tokens.length < 5 then .error "IndexError: list index out of range"
  else
    match ((tokens.drop 6).dropLast).foldlM domStep initDomSt with
    | .error e => .error e
    | .ok st =>
      match st.actionsRaw.foldlM (actionFoldStep st.type_list) ([], []) with
      | .error e => .error e
      | .ok res =>
        .ok { domain := (tokens.drop 4).headD "", requirements := st.requirements,
              type_list := st.type_list, types := st.types, predicates := st.predicates,
              functions := st.functions, constants := st.constants,
              actions := res.2, agent_types := res.1, warnings := st.warnings }

/-! ## Problem parser (`PlanningProblem.parse_problem`)

Same explicit-state embedding.  The loop reads from the surrounding
object only the known-type set, passed as the read-only `type_list`. -/

structure ProbSt where
  opencounter : Int
  keyword : String
  is_obj_list : Bool
  is_function : Bool
  obj_list : List String
  int_opencounter : Int
  objects : List (String × List String)
  object_list : List String
  init : List Predicate
  ground_functions : List GroundFunction
  goal : List Predicate
  metric : Bool
deriving DecidableEq, Repr

/-- Lines 340-351: paren counting (a `)` inside the objects section clears
the buffer), keyword switching.  An unknown `:` keyword is only printed;
the printed lines are returned alongside the state. -/
def probStepChain1 (st : ProbSt) (word : String) : ProbSt × List String :=
  if word = "(" then ({st with opencounter := st.opencounter + 1}, [])
  else if word = ")" then
    let st := if st.keyword = "objects" then {st with obj_list := []} else st
    ({st with opencounter := st.opencounter - 1}, [])
  else if strStartsWith word ':' then
    if ¬ (strDrop1 word ∈ PFILE_KEYWORDS) then
      (st, ["PARSING ERROR: Unknown keyword: " ++ strDrop1 word])
    else ({st with keyword := strDrop1 word}, [])
  else (st, [])

/-- Line 352-353: the keyword register is cleared at depth zero. -/
def probStepClose (st : ProbSt) : ProbSt :=
  if st.opencounter = 0 then {st with keyword := ""} else st

/-- One element of the objects-section binding: unknown type is fatal. -/
def objectsElemStep (type_list : List String) (word : String) (st : ProbSt) (element : String) :
    Except String ProbSt :=
  if word ∈ type_list then
    .ok {st with objects := dictAppend st.objects word element,
                 object_list := listInsert st.object_list element}
  else .error ("ERROR unknown type " ++ word)

/-- The goal branch of the problem loop: balanced-block buffering with the
inner counter, then the shared literal-list rule on the whole block. -/
def goalStep (st : ProbSt) (word : String) : Except String ProbSt :=
  let st1 := if word = "(" then {st with int_opencounter := st.int_opencounter + 1} else st
  let st2 := if word = ")" then {st1 with int_opencounter := st1.int_opencounter - 1} else st1
  let st3 := {st2 with obj_list := st2.obj_list ++ [word]}
  if st3.int_opencounter = (0 : Int) then
    match parse_unground_propositions st3.obj_list with
    | .error e => .error e
    | .ok g => .ok {st3 with goal := g, obj_list := []}
  else .ok st3

/-- Lines 355-406: the per-section chain of the problem loop. -/
def probStepChain2 (type_list : List String) (st : ProbSt) (word : String) :
    Except String ProbSt :=
  if ¬ strStartsWith word ':' then
    if st.keyword = "objects" ∨ st.keyword = "private" then
      if st.keyword = "private" then .ok {st with obj_list := [], keyword := "objects"}
      else if st.is_obj_list then
        .ok (if word = "-" then {st with is_obj_list := false}
             else {st with obj_list := st.obj_list ++ [word]})
      else
        match st.obj_list.foldlM (objectsElemStep type_list word) st with
        | .error e => .error e
        | .ok st' => .ok {st' with is_obj_list := true, obj_list := []}
    else if st.keyword = "init" then
      if word = ")" then
        if st.obj_list.isEmpty then .error "IndexError: list index out of range"
        else if st.obj_list.headD "" = "=" ∧ st.is_function = false then
          .ok {st with is_function := true}
        else if st.is_function then
          .ok {st with ground_functions := st.ground_functions ++ [⟨st.obj_list⟩],
                       is_function := false, obj_list := []}
        else
          .ok {st with
                init := st.init ++ [⟨st.obj_list.headD "", .untyped (st.obj_list.drop 1), false⟩],
                obj_list := []}
      else if word ≠ "(" then .ok {st with obj_list := st.obj_list ++ [word]}
      else .ok st
    else if st.keyword = "goal" then goalStep st word
    else if st.keyword = "metric" then .ok {st with metric := true, obj_list := []}
    else .ok st
  else .ok st

/-- One iteration of the `parse_problem` token loop, returning the new
state and the lines printed during the iteration. -/
def probStep (type_list : List String) (st : ProbSt) (word : String) :
    Except String (ProbSt × List String) :=
  let c1 := probStepChain1 st word
  match probStepChain2 type_list (probStepClose c1.1) word with
  | .error e => .error e
  | .ok st' => .ok (st', c1.2)

/-- The token loop of `parse_problem`, threading the state and collecting
the printed lines. -/
def probFold (type_list : List String) : List String → ProbSt → List String →
    Except String (ProbSt × List String)
  | [], st, ls => .ok (st, ls)
  | w :: rest, st, ls =>
    match probStep type_list st w with
    | .error e => .error e
    | .ok (st', pr) => probFold type_list rest st' (ls ++ pr)

/-- The fields of the `PlanningProblem` object that `parse_problem` fills,
plus the messages it prints. -/
structure ProblemResult where
  problem : String
  objects : List (String × List String)
  object_list : List String
  init : List Predicate
  ground_functions : List GroundFunction
  goal : List Predicate
  metric : Bool
  logs : List String
deriving DecidableEq, Repr

def initProbSt : ProbSt :=
  { opencounter := 0, keyword := "", is_obj_list := true, is_function := false,
    obj_list := [], int_opencounter := 0, objects := [], object_list := [],
    init := [], ground_functions := [], goal := [], metric := false }

/-- `PlanningProblem.parse_problem` over an already-tokenized file.
`domainName` is the name stored by the preceding `parse_domain`; a
mismatch with the header's `:domain` entry is only printed (logged). -/
def parse_problem (type_list : List String) (domainName : String) (tokens : List String) :
    Except String ProblemResult :=
  if tokens.take 4 ≠ ["(", "define", "(", "problem"] then
    .error "PARSING ERROR: Expected (define (problem ... at start of problem file"
  else if tokens.length < 5 then .error "IndexError: list index out of range"
  else if (tokens.drop 5).take 3 ≠ [")", "(", ":domain"] then
    .error "PARSING ERROR: Expected (:domain ...) after (define (problem ...)"
  else if tokens.length < 9 then .error "IndexError: list index out of range"
  else if tokens.length < 10 then .error "IndexError: list index out of range"
  else if (tokens.drop 9).headD "" ≠ ")" then
    .error "PARSING ERROR: Expected end of domain declaration"
  else
    match probFold type_list ((tokens.drop 10).dropLast) initProbSt
        (if domainName ≠ (tokens.drop 8).headD "" then
          ["ERROR - names do not match between domain and problem file."]
        else []) with
    | .error e => .error e
    | .ok (st, ls) =>
      .ok { problem := (tokens.drop 4).headD "", objects := st.objects,
            object_list := st.object_list, init := st.init,
            ground_functions := st.ground_functions, goal := st.goal,
            metric := st.metric, logs := ls }

/-! ## The assembled `PlanningProblem` object and `__init__` -/

structure PlanningProblem where
  domain : String
  requirements : List String
  type_list : List String
  types : List (String × List String)
  predicates : List Predicate
  functions : List Function
  ground_functions : List GroundFunction
  actions : List Action
  agent_types : List String
  agents : Finset String
  problem : String
  object_list : List String
  objects : List (String × List String)
  constants : List (String × List String)
  init : List Predicate
  goal : List Predicate
  metric : Bool
deriving DecidableEq

/-! ### `PlanningProblem.get_objects_of_type`

The source grows `selected_types` to a fixpoint: the `for` loop iterates
over the previous snapshot while rebinding `selected_types`, so one
`while` round is exactly `selGrow`, and the `while` re-enters only while
the cardinality grew.  Every reachable name lies in
`{of_type} ∪ allTypeNames`, so `card (allTypeNames) + 1` rounds reach
the fixpoint. -/

/-- `set(self.types[t])` when `t in self.types`, else nothing to add. -/
def childrenFinset (types : List (String × List String)) (t : String) : Finset String :=
  match dictGet types t with
  | some l => l.toFinset
  | none => ∅

/-- One round of the `while` loop of `get_objects_of_type`. -/
def selGrow (types : List (String × List String)) (s : Finset String) : Finset String :=
  s ∪ s.biUnion (childrenFinset types)

/-- The `while len(selected_types) > pre_size` loop, with fuel. -/
def selIter (types : List (String × List String)) : Nat → Finset String → Finset String
  | 0, s => s
  | n + 1, s =>
    if s.card < (selGrow types s).card then selIter types n (selGrow types s) else s

/-- Every type name occurring in the `types` table (keys and entries). -/
def allTypeNames (types : List (String × List String)) : Finset String :=
  types.foldr (fun kv acc => insert kv.1 (kv.2.toFinset ∪ acc)) ∅

/-- `set(d[t])` when present, else the empty set. -/
def lookupFinset (d : List (String × List String)) (t : String) : Finset String :=
  match dictGet d t with
  | some l => l.toFinset
  | none => ∅

/-- `PlanningProblem.get_objects_of_type`. -/
def get_objects_of_type (p : PlanningProblem) (of_type : String) : Finset String :=
  let selected := selIter p.types ((allTypeNames p.types).card + 1) {of_type}
  selected.biUnion (fun t => lookupFinset p.objects t ∪ lookupFinset p.constants t)

/-- `PlanningProblem.get_type_of_object`: first matching objects key, then
first matching constants key, else Python's implicit `None`. -/
def get_type_of_object (p : PlanningProblem) (obj : String) : Option String :=
  match p.objects.find? (fun kv => decide (obj ∈ kv.2)) with
  | some kv => some kv.1
  | none => (p.constants.find? (fun kv => decide (obj ∈ kv.2))).map (·.1)

def assembleProblem (d : DomainResult) (pr : ProblemResult) : PlanningProblem :=
  { domain := d.domain, requirements := d.requirements, type_list := d.type_list,
    types := d.types, predicates := d.predicates, functions := d.functions,
    ground_functions := pr.ground_functions, actions := d.actions,
    agent_types := d.agent_types, agents := ∅, problem := pr.problem,
    object_list := pr.object_list, objects := pr.objects, constants := d.constants,
    init := pr.init, goal := pr.goal, metric := pr.metric }

/-- The tail of `PlanningProblem.__init__` after both parses: compute the
agent set, then drop the multi-agent-only requirement flags (line 168). -/
def finalizePlanningProblem (d : DomainResult) (pr : ProblemResult) : PlanningProblem :=
  { assembleProblem d pr with
    agents := (assembleProblem d pr).agent_types.foldl
        (fun a t => a ∪ get_objects_of_type (assembleProblem d pr) t)
        (assembleProblem d pr).agents,
    requirements := (assembleProblem d pr).requirements.filter
        (fun r => decide (r ≠ "multi-agent") && decide (r ≠ "unfactored-privacy")) }

def mkPlanningProblem (dlines plines : List String) : Except String PlanningProblem :=
  match parse_domain (get_file_as_array dlines) with
  | .error e => .error e
  | .ok d =>
    match parse_problem d.type_list d.domain (get_file_as_array plines) with
    | .error e => .error e
    | .ok pr => .ok (finalizePlanningProblem d pr)

/-! ## Writers (`write_pddl_domain`, `write_pddl_problem`) -/

/-- `PlanningProblem.write_pddl_domain` (the string written to the file). -/
def write_pddl_domain (p : PlanningProblem) : String :=
  let to_write := "(define (domain " ++ p.domain ++ ")\n"
  let to_write := to_write ++ "\t(:requirements"
      ++ String.join (p.requirements.map (fun r => " :" ++ r)) ++ ")\n"
  let to_write := to_write ++ "(:types\n"
      ++ String.join (p.types.map (fun kv =>
           "\t" ++ String.join (kv.2.map (fun k => k ++ " ")) ++ "- " ++ kv.1 ++ "\n"))
      ++ ")\n"
  let to_write := to_write ++
      (if p.constants.length > 0 then
        "(:constants\n"
          ++ String.join (p.constants.map (fun kv =>
               "\t" ++ String.join (kv.2.map (fun c => c ++ " ")) ++ " - " ++ kv.1 ++ "\n"))
          ++ ")\n"
      else "")
  let to_write := to_write ++ "(:predicates\n"
      ++ String.join (p.predicates.map (fun pr => "\t" ++ pr.pddl_rep ++ "\n")) ++ ")\n"
  let to_write := to_write ++
      (if p.functions.length > 0 then
        "(:functions\n"
          ++ String.join (p.functions.map (fun f => "\t" ++ f.pddl_rep ++ "\n")) ++ ")\n"
      else "")
  let to_write := to_write ++ String.join (p.actions.map (fun a => "\n" ++ a.pddl_rep ++ "\n"))
  to_write ++ ")"

/-- `PlanningProblem.write_pddl_problem`: an object whose type cannot be
resolved makes the source concatenate `None`, a fatal `TypeError`. -/
def write_pddl_problem (p : PlanningProblem) : Except String String := do
  let objLines ← p.object_list.foldlM
      (fun acc obj =>
        match get_type_of_object p obj with
        | some t => pure (acc ++ "\t" ++ obj ++ " - " ++ t ++ "\n")
        | none => throw "TypeError: unresolved object type")
      ""
  let to_write := "(define (problem " ++ p.problem ++ ") " ++ "(:domain " ++ p.domain ++ ")\n"
  let to_write := to_write ++ "(:objects\n" ++ objLines ++ ")\n"
  let to_write := to_write ++ "(:init\n"
      ++ String.join (p.init.map (fun pr => "\t" ++ pr.pddl_rep ++ "\n"))
      ++ String.join (p.ground_functions.map (fun f => "\t" ++ f.pddl_rep ++ "\n"))
      ++ ")\n"
  let to_write := to_write ++ "(:goal\n\t(and\n"
      ++ String.join (p.goal.map (fun g => "\t\t" ++ g.pddl_rep ++ "\n"))
      ++ "\t)\n)\n"
  let to_write := to_write ++ (if p.metric then "(:metric minimize (total-cost))\n" else "")
  return to_write ++ ")"

/-- `true` on `.ok`, `false` on `.error`. -/
def exceptOk {ε α : Type} : Except ε α → Bool
  | .ok _ => true
  | .error _ => false

/-- The round-trip of the spec: build the model, serialize it to classical
form, and reparse the emitted text with the repository's own parser.
The emitted text contains no `;`, so feeding it as a single line is
equivalent to any line split. -/
def classicalRoundTrip (dlines plines : List String) :
    Except String (PlanningProblem × PlanningProblem) :=
  match mkPlanningProblem dlines plines with
  | .error e => .error e
  | .ok p =>
    match write_pddl_problem p with
    | .error e => .error e
    | .ok ptext =>
      match mkPlanningProblem [write_pddl_domain p] [ptext] with
      | .error e => .error e
      | .ok p2 => .ok (p, p2)

/-! ## Spec-side reference definitions and concrete example inputs -/

/-- The tokenizer as the spec states it (tabs NORMALIZED TO SPACES, the
behaviour asserted by the claim); only the treatment of `'\t'` differs
from `charReplace`. -/
def charReplaceSpecTabs (c : Char) : List Char :=
  if c = '\t' then [' '] else charReplace c

/-- The spec's tokenizer (§4.1, tab normalized to a space rather than
deleted). -/
def specTokenizerTabsToSpaces (lines : List String) : List String :=
  splitWSAux ((lines.map (fun l => (commentStrip l.data).flatMap charReplaceSpecTabs)).flatten) []

/-- Reflexive-transitive descent in the `types` table: `TypeDesc types a b`
holds when `b` is `a` or transitively subordinate to `a`. -/
inductive TypeDesc (types : List (String × List String)) : String → String → Prop
  | refl (t : String) : TypeDesc types t t
  | step {a b c : String} : TypeDesc types a b → c ∈ childrenFinset types b →
      TypeDesc types a c

/-- A multi-agent domain file, one string per line. -/
def exDomainLines : List String :=
  ["(define (domain madom)\n",
   "(:requirements :typing :multi-agent :unfactored-privacy)\n",
   "(:types\n",
   " agent - object\n",
   " robot - agent\n",
   " loc - object\n",
   ")\n",
   "(:predicates\n",
   " (at ?r - robot ?l - loc)\n",
   ")\n",
   "(:action move\n",
   " :agent ?r - robot\n",
   " :parameters (?from - loc ?to - loc)\n",
   " :precondition (at ?r ?from)\n",
   " :effect (and (not (at ?r ?from)) (at ?r ?to))\n",
   ")\n",
   ")\n"]

/-- The companion multi-agent problem file. -/
def exProblemLines : List String :=
  ["(define (problem maprob) (:domain madom)\n",
   "(:objects\n",
   " r1 - robot\n",
   " l1 - loc\n",
   " l2 - loc\n",
   ")\n",
   "(:init\n",
   " (at r1 l1)\n",
   ")\n",
   "(:goal (and (at r1 l2)))\n",
   ")\n"]

/-- The model of the type-hierarchy-closure example: `agent < object`,
`robot < agent`, one declared object `r1 - robot`. -/
def exampleHierarchy : PlanningProblem :=
  { domain := "d", requirements := [], type_list := ["object", "agent", "robot"],
    types := [("object", ["agent"]), ("agent", ["robot"])], predicates := [],
    functions := [], ground_functions := [], actions := [], agent_types := ["robot"],
    agents := ∅, problem := "p", object_list := ["r1"], objects := [("robot", ["r1"])],
    constants := [], init := [], goal := [], metric := false }

/-- The classical action `move_agentA(agentA - rtype, ?from - loc, ?to - loc)`
of the remapping example. -/
def exConvAction : UPAction :=
  { name := "move_agentA",
    parameters := [⟨"agentA", "rtype"⟩, ⟨"?from", "loc"⟩, ⟨"?to", "loc"⟩] }

/-- A classical problem containing `exConvAction` and the objects
`agentA - rtype`, `l1 l2 - loc`. -/
def exConvProblem : UPProblem :=
  { actions := [exConvAction],
    objects := [⟨"agentA", "rtype"⟩, ⟨"l1", "loc"⟩, ⟨"l2", "loc"⟩] }

/-- The occurrence `(move, agentA, [l1, l2])`. -/
def exConvInstance : UPActionInstance := ⟨"move", some "agentA", ["l1", "l2"]⟩

/-- A one-linearization checker for the `validate_loop` analysis: the
`Bool` input stands for the verdict of the classical sequential checker
on that linearization. -/
def chkId : Bool → ValidationResultStatus :=
  fun b => if b then .VALID else .INVALID

/-- A domain-parser state in the middle of an open requirements section. -/
def exReqSt : DomSt := {initDomSt with keyword := "requirements", opencounter := 1}

/-! # Theorems -/

/-! ## Shared helper lemmas -/

theorem listInsert_mem {l : List String} {x r : String} :
    r ∈ listInsert l x ↔ r ∈ l ∨ r = x := by
  unfold listInsert
  split <;> rename_i h
  · constructor
    · exact Or.inl
    · rintro (hr | rfl) <;> [exact hr; exact h]
  · simp [List.mem_append]

theorem exceptOk_map {ε α β : Type} (f : α → β) (e : Except ε α) :
    exceptOk (Except.map f e) = exceptOk e := by
  cases e <;> rfl

/-- Invariant preservation through `List.foldlM` over `Except String`. -/
theorem foldlM_except_inv {α β : Type} (P : β → Prop) (f : β → α → Except String β)
    (hf : ∀ b a b', P b → f b a = .ok b' → P b') :
    ∀ (l : List α) (b out : β), P b → l.foldlM f b = .ok out → P out := by
  intro l
  induction l with
  | nil =>
    intro b out hP h
    simp only [List.foldlM_nil] at h
    cases h
    exact hP
  | cons a l ih =>
    intro b out hP h
    rw [List.foldlM_cons] at h
    cases hfa : f b a with
    | error e => rw [hfa] at h; exact absurd h (by simp [Bind.bind, Except.bind])
    | ok b2 =>
      rw [hfa] at h
      have h2 : l.foldlM f b2 = .ok out := by
        simpa [Bind.bind, Except.bind] using h
      exact ih b2 out (hf b a b2 hP hfa) h2

/-- A field projection preserved by every step of a `List.foldl` is
preserved by the fold. -/
theorem foldl_proj_inv {β γ α : Type} (proj : β → γ) (g : β → α → β)
    (hg : ∀ s e, proj (g s e) = proj s) :
    ∀ (l : List α) (st : β), proj (l.foldl g st) = proj st := by
  intro l
  induction l with
  | nil => intro st; rfl
  | cons a l ih => intro st; rw [List.foldl_cons, ih, hg]

/-! ## C1: the linearization search of `MAPlanValidator._validate` -/

open ValidationResultStatus in
/-- C1 (counterexample): with two linearizations where the classical
checker accepts the first and rejects the second, an accepted
linearization exists — so the claim predicts overall VALID with only one
linearization evaluated — yet `_validate` evaluates both and returns
INVALID. -/
theorem validate_loop_counterexample :
    chkId true = VALID ∧
    List.any [true, false] (fun p => decide (chkId p = VALID)) = true ∧
    validate_loop chkId [true, false] = (INVALID, 2) :=
  ⟨rfl, rfl, rfl⟩

open ValidationResultStatus in
/-- C1 (amended): the loop of `MAPlanValidator._validate` stops at the
first linearization REJECTED by the classical sequential checker and
returns overall INVALID; only if every linearization is accepted does it
return overall VALID; when a linearization fails, no further
linearization is evaluated (the count of evaluated linearizations is the
index of the first rejected one plus one). -/
theorem validate_loop_stops_at_first_rejected {α : Type}
    (check : α → ValidationResultStatus) (plans : List α) :
    validate_loop check plans =
      if plans.all (fun p => decide (check p = VALID)) then (VALID, plans.length)
      else (INVALID, (plans.takeWhile (fun p => decide (check p = VALID))).length + 1) := by
  induction plans with
  | nil => rfl
  | cons p rest ih =>
    by_cases h : check p = VALID
    · rw [validate_loop, if_pos h, ih]
      by_cases h2 : rest.all (fun p => decide (check p = VALID))
      · simp [h, h2, List.all_cons]
      · simp [h, h2, List.all_cons, List.takeWhile_cons]
    · rw [validate_loop, if_neg h]
      simp [h, List.all_cons, List.takeWhile_cons]

/-! ## C10: agentless occurrences are rejected before any lookup -/

/-- C10: an occurrence whose agent is `None` makes `_convert_action` raise
before any classical-action lookup: the result is the agent-missing error
and is independent of the problem (hence of its action table). -/
theorem convert_action_agentless (ai : UPActionInstance) (h : ai.agent = none) :
    (∀ problem : UPProblem, PlanConverter.convert_action problem ai = .error .noAgent) ∧
    (∀ problem problem2 : UPProblem,
      PlanConverter.convert_action problem ai = PlanConverter.convert_action problem2 ai) := by
  constructor
  · intro problem
    simp only [PlanConverter.convert_action, h]
  · intro problem problem2
    simp only [PlanConverter.convert_action, h]

/-- C10 (witness): the agentless occurrence `(move, None, [])` against an
empty problem. -/
theorem convert_action_agentless_witness :
    PlanConverter.convert_action ⟨[], []⟩ ⟨"move", none, []⟩ = .error .noAgent :=
  (convert_action_agentless ⟨"move", none, []⟩ rfl).1 ⟨[], []⟩

/-! ## C2: remapping one occurrence (`_convert_action` / `_get_agent_param`) -/

/-- C2: for an occurrence with agent `ag`, `_convert_action` looks up the
classical action named `<action>_<ag>`; absence is the fatal lookup error
and is not retried (any error of `_get_agent_param` on the first match
propagates).  On the found action, parameter 0 is bound to the object
named by the action's first parameter after checking that its declared
type equals that parameter's type (mismatch fatal); when the first
parameter carries the agent's name — as the writer guarantees — the bound
object is the agent object, and the remaining parameters are bound
positionally to the argument objects. -/
theorem convert_action_spec (problem : UPProblem) (ai : UPActionInstance) (ag : String)
    (hag : ai.agent = some ag) :
    (problem.actions.find? (fun a => decide (ai.action ++ "_" ++ ag = a.name)) = none →
      PlanConverter.convert_action problem ai = .error .noMatch) ∧
    (∀ act_prob,
      problem.actions.find? (fun a => decide (ai.action ++ "_" ++ ag = a.name)) = some act_prob →
      ((∀ e, PlanConverter.get_agent_param problem act_prob = .error e →
          PlanConverter.convert_action problem ai = .error e) ∧
       (∀ p0 rest, act_prob.parameters = p0 :: rest →
        ∀ ob, problem.object? p0.name = some ob →
          ((ob.type ≠ p0.type →
             PlanConverter.convert_action problem ai = .error .typeMismatch) ∧
           (ob.type = p0.type → p0.name = ag →
             PlanConverter.convert_action problem ai
               = .ok ⟨act_prob, ag :: ai.actual_parameters⟩))))) := by
  constructor
  · intro hnone
    simp only [PlanConverter.convert_action, hag, hnone]
  · intro act_prob hfind
    constructor
    · intro e he
      simp only [PlanConverter.convert_action, hag, hfind, he]
      rfl
    · intro p0 rest hparams ob hob
      have hobname : ob.name = p0.name := by
        have h1 := List.find?_some hob
        exact of_decide_eq_true h1
      constructor
      · intro hne
        have hga : PlanConverter.get_agent_param problem act_prob = .error .typeMismatch := by
          simp only [PlanConverter.get_agent_param, hparams, hob]
          exact if_neg hne
        simp only [PlanConverter.convert_action, hag, hfind, hga]
        rfl
      · intro heq hname
        have hga : PlanConverter.get_agent_param problem act_prob = .ok ob := by
          simp only [PlanConverter.get_agent_param, hparams, hob]
          exact if_pos heq
        simp only [PlanConverter.convert_action, hag, hfind, hga]
        simp [Except.map, hobname, hname]

/-- C2 (witness): `(move, agentA, [l1, l2])` against the classical action
`move_agentA(agentA - rtype, ?from - loc, ?to - loc)` binds parameter 0 to
`agentA` and parameters 1..2 to `l1, l2`. -/
theorem convert_action_spec_witness :
    PlanConverter.convert_action exConvProblem exConvInstance
      = .ok ⟨exConvAction, ["agentA", "l1", "l2"]⟩ :=
  ((((convert_action_spec exConvProblem exConvInstance "agentA" rfl).2 exConvAction
      rfl).2 ⟨"agentA", "rtype"⟩ [⟨"?from", "loc"⟩, ⟨"?to", "loc"⟩] rfl)
      ⟨"agentA", "rtype"⟩ rfl).2 rfl rfl

/-! ## C8: single-literal collapse in `Action.pddl_rep` -/

/-- C8: in the serialized action, a precondition (or effect) list with
exactly one literal is emitted bare, a list of two or more literals is
wrapped in an explicit `(and ...)` conjunction. -/
theorem action_emission_single_vs_multi (a : Action) :
    a.pddl_rep = actionHeadPart a ++ actionPrecPart a ++ actionEffectPart a ∧
    (∀ p, a.precondition = [p] →
      actionPrecPart a = "\t:precondition \n" ++ ("\t\t" ++ p.pddl_rep ++ "\n")) ∧
    (∀ p q rest, a.precondition = p :: q :: rest →
      actionPrecPart a = "\t:precondition (and\n"
        ++ String.join ((p :: q :: rest).map (fun x => "\t\t" ++ x.pddl_rep ++ "\n"))
        ++ "\t)\n") ∧
    (∀ p, a.effect = [p] →
      actionEffectPart a = "\t:effect \n" ++ ("\t\t" ++ p.pddl_rep ++ "\n") ++ ")\n") ∧
    (∀ p q rest, a.effect = p :: q :: rest →
      actionEffectPart a = "\t:effect (and\n"
        ++ String.join ((p :: q :: rest).map (fun x => "\t\t" ++ x.pddl_rep ++ "\n"))
        ++ "\t)\n" ++ ")\n") := by
  refine ⟨rfl, ?_, ?_, ?_, ?_⟩
  · intro p hp
    simp [actionPrecPart, hp, String.join]
  · intro p q rest hp
    simp [actionPrecPart, hp]
  · intro p hp
    simp [actionEffectPart, hp, String.join]
  · intro p q rest hp
    simp [actionEffectPart, hp]

/-- C8 (witness): an action with one precondition literal and two effect
literals. -/
theorem action_emission_single_vs_multi_witness :
    actionPrecPart ⟨"move", ⟨"", .typed [], false⟩, [⟨"at", .untyped ["?r"], false⟩],
        [⟨"at", .untyped ["?r"], true⟩, ⟨"at", .untyped ["?s"], false⟩], 1, "", ""⟩
      = "\t:precondition \n" ++ ("\t\t" ++ Predicate.pddl_rep ⟨"at", .untyped ["?r"], false⟩ ++ "\n") ∧
    actionEffectPart ⟨"move", ⟨"", .typed [], false⟩, [⟨"at", .untyped ["?r"], false⟩],
        [⟨"at", .untyped ["?r"], true⟩, ⟨"at", .untyped ["?s"], false⟩], 1, "", ""⟩
      = "\t:effect (and\n"
        ++ String.join ([(⟨"at", .untyped ["?r"], true⟩ : Predicate),
            ⟨"at", .untyped ["?s"], false⟩].map (fun x => "\t\t" ++ x.pddl_rep ++ "\n"))
        ++ "\t)\n" ++ ")\n" := by
  constructor
  · exact (action_emission_single_vs_multi _).2.1 _ rfl
  · exact (action_emission_single_vs_multi _).2.2.2.2 _ _ [] rfl

/-! ## C5: handling of tokens in the requirements section -/

/-- C5: while a requirements section is open (`keyword = "requirements"`,
nesting depth 1) and the token is not the `:requirements` marker itself:
a token that does not start with `:` — other than the `)` that closes the
section — aborts the parse fatally; a `:`-token whose flag is outside
{typing, strips, multi-agent, unfactored-privacy} only records a warning
and parsing continues; a `:`-token with a flag inside that set records
the flag in the requirements set. -/
theorem requirements_token_handling (st : DomSt) (w : String)
    (hk : st.keyword = "requirements") (hc : st.opencounter = 1)
    (hw : w ≠ ":requirements") :
    (strStartsWith w ':' = false → w ≠ ")" →
      domStep st w = .error "PARSING ERROR: Expected requirement to start with :") ∧
    (strStartsWith w ':' = true → ¬ (strDrop1 w ∈ DFILE_REQ_KEYWORDS) →
      domStep st w
        = .ok {st with warnings := st.warnings ++ ["WARNING: Unknown Requirement " ++ strDrop1 w]}) ∧
    (strStartsWith w ':' = true → strDrop1 w ∈ DFILE_REQ_KEYWORDS →
      domStep st w = .ok {st with requirements := listInsert st.requirements (strDrop1 w)}) := by
  refine ⟨?_, ?_, ?_⟩
  · intro hsw hpr
    by_cases hlp : w = "("
    · subst hlp
      simp only [domStep, domStepChain1, domStepClose, domStepChain2, requirementsStep, if_pos rfl]
      simp [hk, hc, hw, hsw]
    · simp only [domStep, domStepChain1, domStepClose, domStepChain2, requirementsStep]
      simp [hk, hc, hw, hsw, hlp, hpr]
  · intro hsw hflag
    have hlp : w ≠ "(" := by
      intro h; subst h; simp [strStartsWith] at hsw
    have hrp : w ≠ ")" := by
      intro h; subst h; simp [strStartsWith] at hsw
    simp only [domStep, domStepChain1, domStepClose, domStepChain2, requirementsStep]
    by_cases hdk : strDrop1 w ∈ DFILE_KEYWORDS
    · simp [hk, hc, hw, hsw, hlp, hrp, hdk, hflag]
    · simp [hk, hc, hw, hsw, hlp, hrp, hdk, hflag]
  · intro hsw hflag
    have hlp : w ≠ "(" := by
      intro h; subst h; simp [strStartsWith] at hsw
    have hrp : w ≠ ")" := by
      intro h; subst h; simp [strStartsWith] at hsw
    simp only [domStep, domStepChain1, domStepClose, domStepChain2, requirementsStep]
    by_cases hdk : strDrop1 w ∈ DFILE_KEYWORDS
    · simp [hk, hc, hw, hsw, hlp, hrp, hdk, hflag]
    · simp [hk, hc, hw, hsw, hlp, hrp, hdk, hflag]

/-- C5 (witness): in an open requirements section, the bare token
`typing` is fatal, `:foo` only warns, `:strips` is recorded. -/
theorem requirements_token_handling_witness :
    domStep exReqSt "typing" = .error "PARSING ERROR: Expected requirement to start with :" ∧
    domStep exReqSt ":foo"
      = .ok {exReqSt with warnings := exReqSt.warnings ++ ["WARNING: Unknown Requirement " ++ strDrop1 ":foo"]} ∧
    domStep exReqSt ":strips"
      = .ok {exReqSt with requirements := listInsert exReqSt.requirements (strDrop1 ":strips")} :=
  ⟨(requirements_token_handling exReqSt "typing" rfl rfl (by decide)).1 (by decide) (by decide),
   (requirements_token_handling exReqSt ":foo" rfl rfl (by decide)).2.1 (by decide) (by decide),
   (requirements_token_handling exReqSt ":strips" rfl rfl (by decide)).2.2 (by decide) (by decide)⟩

/-! ## C7: the tokenizer -/

/-- C7 (counterexample): the source deletes tab characters outright
(`replace("\t", "")`) instead of normalizing them to spaces, so the line
`a<TAB>b` tokenizes to the single atom `ab`, not to `a`, `b` as the claim
predicts. -/
theorem get_file_as_array_tab_counterexample :
    get_file_as_array ["a\tb"] = ["ab"] ∧
    specTokenizerTabsToSpaces ["a\tb"] = ["a", "b"] ∧
    ¬ get_file_as_array ["a\tb"] = specTokenizerTabsToSpaces ["a\tb"] :=
  ⟨rfl, rfl, by decide⟩

theorem commentStrip_filter_tab (l : List Char) :
    commentStrip (l.filter (fun c => decide (c ≠ '\t')))
      = (commentStrip l).filter (fun c => decide (c ≠ '\t')) := by
  induction l with
  | nil => rfl
  | cons c l ih =>
    by_cases ht : c = '\t'
    · subst ht
      simp [commentStrip, List.filter_cons, List.takeWhile_cons] at ih ⊢
      exact ih
    · by_cases hc : c = ';'
      · subst hc
        simp [commentStrip, List.filter_cons, List.takeWhile_cons]
      · simp [commentStrip, List.filter_cons, List.takeWhile_cons, ht, hc] at ih ⊢
        exact ih

theorem flatMap_charReplace_filter_tab (l : List Char) :
    (l.filter (fun c => decide (c ≠ '\t'))).flatMap charReplace = l.flatMap charReplace := by
  induction l with
  | nil => rfl
  | cons c l ih =>
    by_cases ht : c = '\t'
    · subst ht
      rw [List.filter_cons, if_neg (by simp)]
      rw [ih]
      simp [charReplace]
    · rw [List.filter_cons, if_pos (by simpa using ht)]
      rw [List.flatMap_cons, List.flatMap_cons, ih]

theorem commentStrip_idem (l : List Char) :
    commentStrip (commentStrip l) = commentStrip l := by
  induction l with
  | nil => rfl
  | cons c l ih =>
    by_cases hc : c = ';'
    · subst hc; simp [commentStrip, List.takeWhile_cons]
    · simp [commentStrip, List.takeWhile_cons, hc] at ih ⊢
      exact ih

theorem lineTransform_filter_tab (l : List Char) :
    lineTransform (l.filter (fun c => decide (c ≠ '\t'))) = lineTransform l := by
  unfold lineTransform
  rw [commentStrip_filter_tab, flatMap_charReplace_filter_tab]

/-- C7 (amended): the tokenizer strips everything from the first `;` of a
line onward, DELETES tab characters outright (adjacent characters join),
turns newlines into spaces, pads parentheses, splits on whitespace, and
always returns non-empty whitespace-free atoms: pre-deleting tabs or
pre-truncating comments does not change its output, and every returned
atom is non-empty and contains no whitespace. -/
theorem get_file_as_array_amended :
    (∀ lines tok, tok ∈ get_file_as_array lines →
        tok ≠ "" ∧ ∀ c ∈ tok.data, c.isWhitespace = false) ∧
    (∀ lines, get_file_as_array
        (lines.map (fun l => String.mk (l.data.filter (fun c => decide (c ≠ '\t')))))
      = get_file_as_array lines) ∧
    (∀ lines, get_file_as_array (lines.map (fun l => String.mk (commentStrip l.data)))
      = get_file_as_array lines) := by
  refine ⟨?_, ?_, ?_⟩
  · have key : ∀ (cs acc : List Char), (∀ c ∈ acc, c.isWhitespace = false) →
        ∀ tok ∈ splitWSAux cs acc, tok ≠ "" ∧ ∀ c ∈ tok.data, c.isWhitespace = false := by
      intro cs
      induction cs with
      | nil =>
        intro acc hacc tok htok
        simp only [splitWSAux] at htok
        split at htok
        · simp at htok
        · rename_i hne
          simp only [List.mem_singleton] at htok
          subst htok
          refine ⟨?_, ?_⟩
          · intro hcon
            have : acc.reverse = [] := congrArg String.data hcon
            simp at this
            exact hne this
          · intro c hcmem
            exact hacc c (by simpa using hcmem)
      | cons c rest ih =>
        intro acc hacc tok htok
        simp only [splitWSAux] at htok
        by_cases hws : c.isWhitespace
        · rw [if_pos hws] at htok
          rcases List.mem_append.1 htok with h1 | h2
          · split at h1
            · simp at h1
            · rename_i hne
              simp only [List.mem_singleton] at h1
              subst h1
              refine ⟨?_, ?_⟩
              · intro hcon
                have : acc.reverse = [] := congrArg String.data hcon
                simp at this
                exact hne this
              · intro ch hcmem
                exact hacc ch (by simpa using hcmem)
          · exact ih [] (by simp) tok h2
        · rw [if_neg hws] at htok
          refine ih (c :: acc) ?_ tok htok
          intro ch hch
          rcases List.mem_cons.1 hch with rfl | hch
          · exact Bool.eq_false_iff.2 hws
          · exact hacc ch hch
    intro lines tok htok
    exact key _ [] (by simp) tok htok
  · intro lines
    unfold get_file_as_array
    have hf : ((fun l => lineTransform l.data) ∘
          fun l : String => String.mk (l.data.filter (fun c => decide (c ≠ '\t'))))
        = (fun l : String => lineTransform l.data) := by
      funext l
      simpa using lineTransform_filter_tab l.data
    rw [List.map_map, hf]
  · intro lines
    unfold get_file_as_array
    have hf : ((fun l => lineTransform l.data) ∘
          fun l : String => String.mk (commentStrip l.data))
        = (fun l : String => lineTransform l.data) := by
      funext l
      show lineTransform (String.mk (commentStrip l.data)).data = lineTransform l.data
      unfold lineTransform
      show (commentStrip (commentStrip l.data)).flatMap charReplace = _
      rw [commentStrip_idem]
    rw [List.map_map, hf]

/-- C7 (witness): the atom produced from `a<TAB>b` is non-empty and
whitespace-free. -/
theorem get_file_as_array_amended_witness :
    "ab" ≠ "" ∧ ∀ c ∈ ("ab".data), c.isWhitespace = false :=
  get_file_as_array_amended.1 ["a\tb"] "ab" (by decide)

/-! ## C9: the problem-file header -/

/-- The printed-lines accumulator of `probFold` is threaded passively:
running with accumulator `ls` equals running with `[]` and prefixing. -/
theorem probFold_append (type_list : List String) :
    ∀ (ws : List String) (st : ProbSt) (ls : List String),
      probFold type_list ws st ls
        = Except.map (fun r => (r.1, ls ++ r.2)) (probFold type_list ws st []) := by
  intro ws
  induction ws with
  | nil =>
    intro st ls
    simp [probFold, Except.map]
  | cons w rest ih =>
    intro st ls
    simp only [probFold]
    cases h : probStep type_list st w with
    | error e => simp [Except.map]
    | ok r =>
      obtain ⟨st', pr⟩ := r
      show probFold type_list rest st' (ls ++ pr)
          = Except.map (fun r => (r.1, ls ++ r.2)) (probFold type_list rest st' ([] ++ pr))
      rw [ih st' (ls ++ pr), ih st' ([] ++ pr)]
      cases hb : probFold type_list rest st' [] with
      | error e => simp [Except.map]
      | ok r2 => simp [Except.map, List.append_assoc]

/-- C9: `parse_problem` fails fatally on any header deviating from
`( define ( problem <name> ) ( :domain <domain-name> )` — a wrong opening,
a wrong `(:domain` group, or a missing `)` after the domain name — but a
domain name at position 8 that differs from the parsed domain's name
never changes success or failure (the outcome is the same for every
stored domain name), and is logged in the result. -/
theorem parse_problem_header (type_list : List String) (dn : String) (tokens : List String) :
    (tokens.take 4 ≠ ["(", "define", "(", "problem"] →
      exceptOk (parse_problem type_list dn tokens) = false) ∧
    ((tokens.drop 5).take 3 ≠ [")", "(", ":domain"] →
      exceptOk (parse_problem type_list dn tokens) = false) ∧
    ((tokens.drop 9).headD "" ≠ ")" →
      exceptOk (parse_problem type_list dn tokens) = false) ∧
    (∀ dn2, exceptOk (parse_problem type_list dn tokens)
        = exceptOk (parse_problem type_list dn2 tokens)) ∧
    (∀ res, parse_problem type_list dn tokens = .ok res →
      dn ≠ (tokens.drop 8).headD "" →
      "ERROR - names do not match between domain and problem file." ∈ res.logs) := by
  refine ⟨?_, ?_, ?_, ?_, ?_⟩
  · intro h
    unfold parse_problem
    rw [if_pos h]
    rfl
  · intro h
    unfold parse_problem
    by_cases h1 : tokens.take 4 ≠ ["(", "define", "(", "problem"]
    · rw [if_pos h1]; rfl
    · rw [if_neg h1]
      by_cases h2 : tokens.length < 5
      · rw [if_pos h2]; rfl
      · rw [if_neg h2, if_pos h]; rfl
  · intro h
    unfold parse_problem
    by_cases h1 : tokens.take 4 ≠ ["(", "define", "(", "problem"]
    · rw [if_pos h1]; rfl
    · rw [if_neg h1]
      by_cases h2 : tokens.length < 5
      · rw [if_pos h2]; rfl
      · rw [if_neg h2]
        by_cases h3 : (tokens.drop 5).take 3 ≠ [")", "(", ":domain"]
        · rw [if_pos h3]; rfl
        · rw [if_neg h3]
          by_cases h4 : tokens.length < 9
          · rw [if_pos h4]; rfl
          · rw [if_neg h4]
            by_cases h5 : tokens.length < 10
            · rw [if_pos h5]; rfl
            · rw [if_neg h5, if_pos h]; rfl
  · intro dn2
    unfold parse_problem
    by_cases h1 : tokens.take 4 ≠ ["(", "define", "(", "problem"]
    · rw [if_pos h1, if_pos h1]
    · rw [if_neg h1, if_neg h1]
      by_cases h2 : tokens.length < 5
      · rw [if_pos h2, if_pos h2]
      · rw [if_neg h2, if_neg h2]
        by_cases h3 : (tokens.drop 5).take 3 ≠ [")", "(", ":domain"]
        · rw [if_pos h3, if_pos h3]
        · rw [if_neg h3, if_neg h3]
          by_cases h4 : tokens.length < 9
          · rw [if_pos h4, if_pos h4]
          · rw [if_neg h4, if_neg h4]
            by_cases h5 : tokens.length < 10
            · rw [if_pos h5, if_pos h5]
            · rw [if_neg h5, if_neg h5]
              by_cases h6 : (tokens.drop 9).headD "" ≠ ")"
              · rw [if_pos h6, if_pos h6]
              · rw [if_neg h6, if_neg h6]
                rw [probFold_append type_list ((tokens.drop 10).dropLast) initProbSt
                      (if dn ≠ (tokens.drop 8).headD "" then
                        ["ERROR - names do not match between domain and problem file."]
                      else []),
                    probFold_append type_list ((tokens.drop 10).dropLast) initProbSt
                      (if dn2 ≠ (tokens.drop 8).headD "" then
                        ["ERROR - names do not match between domain and problem file."]
                      else [])]
                cases probFold type_list ((tokens.drop 10).dropLast) initProbSt [] with
                | error e => rfl
                | ok r => rfl
  · intro res hres hmm
    unfold parse_problem at hres
    split at hres
    · exact absurd hres (by simp)
    · split at hres
      · exact absurd hres (by simp)
      · split at hres
        · exact absurd hres (by simp)
        · split at hres
          · exact absurd hres (by simp)
          · split at hres
            · exact absurd hres (by simp)
            · split at hres
              · exact absurd hres (by simp)
              · rw [probFold_append] at hres
                cases hb : probFold type_list ((tokens.drop 10).dropLast) initProbSt [] with
                | error e =>
                  rw [hb] at hres
                  exact absurd hres (by simp [Except.map])
                | ok r =>
                  obtain ⟨st0, ls0⟩ := r
                  rw [hb] at hres
                  simp only [Except.map] at hres
                  injection hres with hres2
                  have hlogs : res.logs
                      = ["ERROR - names do not match between domain and problem file."] ++ ls0 := by
                    rw [← hres2]
                  rw [hlogs]
                  exact List.mem_append_left _ (List.mem_singleton_self _)

/-- C9 (witness): a malformed opening and a missing `)` after `:domain`
are fatal; the example problem file parses to completion although the
stored domain name `dX` differs from the header's `madom`. -/
theorem parse_problem_header_witness :
    exceptOk (parse_problem [] "d" ["x"]) = false ∧
    exceptOk (parse_problem [] "d"
        ["(", "define", "(", "problem", "p", ")", "(", ":domain", "q", "x"]) = false ∧
    exceptOk (parse_problem ["object", "agent", "robot", "loc"] "dX"
        (get_file_as_array exProblemLines)) = true := by
  refine ⟨(parse_problem_header [] "d" ["x"]).1 (by decide),
    (parse_problem_header [] "d" _).2.2.1 (by decide), ?_⟩
  rw [(parse_problem_header ["object", "agent", "robot", "loc"] "dX"
      (get_file_as_array exProblemLines)).2.2.2.1 "madom"]
  rfl

/-! ## C4: multi-agent-only requirement flags are removed before serialization -/

theorem domStepChain1_requirements (st : DomSt) (w : String) :
    (domStepChain1 st w).requirements = st.requirements := by
  unfold domStepChain1
  repeat' split
  all_goals rfl

theorem domStepClose_requirements (st : DomSt) :
    (domStepClose st).requirements = st.requirements := by
  unfold domStepClose
  split
  · by_cases ha : st.keyword = "action"
    · by_cases ht : st.keyword = "types"
      · rw [ha] at ht
        exact absurd ht (by decide)
      · simp [ha, ht]
    · by_cases ht : st.keyword = "types"
      · simp [ha, ht, foldl_proj_inv DomSt.requirements typesCloseOne (fun _ _ => rfl)]
      · simp [ha, ht]
  · rfl

theorem typesElemStep_requirements (w : String) (s : DomSt) (e : String) :
    (typesElemStep w s e).requirements = s.requirements := by
  unfold typesElemStep
  split <;> rfl

theorem constantsElemStep_requirements (w : String) (s s' : DomSt) (e : String)
    (h : constantsElemStep w s e = .ok s') : s'.requirements = s.requirements := by
  unfold constantsElemStep at h
  split at h
  · injection h with h2
    rw [← h2]
  · cases h

theorem predicatesCloseStep_requirements (s s' : DomSt)
    (h : predicatesCloseStep s = .ok s') : s'.requirements = s.requirements := by
  unfold predicatesCloseStep at h
  split at h
  · injection h with h2
    rw [← h2]
  · split at h
    · cases h
    · injection h with h2
      rw [← h2]

theorem requirementsStep_requirements (st st' : DomSt) (w : String)
    (h : requirementsStep st w = .ok st') :
    st'.requirements = st.requirements ∨
      ∃ fl, fl ∈ DFILE_REQ_KEYWORDS ∧ st'.requirements = listInsert st.requirements fl := by
  unfold requirementsStep at h
  split at h
  · split at h
    · cases h
    · split at h
      · injection h with h2
        left; rw [← h2]
      · rename_i hnn
        injection h with h2
        right
        exact ⟨strDrop1 w, not_not.1 hnn, by rw [← h2]⟩
  · injection h with h2
    left; rw [← h2]

theorem typesStep_requirements (st : DomSt) (w : String) :
    (typesStep st w).requirements = st.requirements := by
  unfold typesStep
  split
  · split <;> rfl
  · exact foldl_proj_inv DomSt.requirements (typesElemStep w)
      (fun s e => typesElemStep_requirements w s e) st.obj_list st

theorem constantsStep_requirements (st st' : DomSt) (w : String)
    (h : constantsStep st w = .ok st') : st'.requirements = st.requirements := by
  unfold constantsStep at h
  split at h
  · injection h with h2
    rw [← h2]
    split <;> rfl
  · split at h
    · cases h
    · rename_i st2 hst2
      injection h with h2
      rw [← h2]
      exact foldlM_except_inv (fun s => s.requirements = st.requirements)
        (constantsElemStep w)
        (fun b a b' hP hb => by
          show b'.requirements = st.requirements
          rw [constantsElemStep_requirements w b b' a hb]
          exact hP)
        st.obj_list st st2 rfl hst2

theorem predicatesStep_requirements (st st' : DomSt) (w : String)
    (h : predicatesStep st w = .ok st') : st'.requirements = st.requirements := by
  unfold predicatesStep at h
  split at h
  · rw [predicatesCloseStep_requirements _ _ h]
    split <;> rfl
  · split at h
    · injection h with h2
      rw [← h2]
    · injection h with h2
      rw [← h2]

theorem functionsStep_requirements (st st' : DomSt) (w : String)
    (h : functionsStep st w = .ok st') : st'.requirements = st.requirements := by
  unfold functionsStep at h
  split at h
  · split at h
    · cases h
    · injection h with h2
      rw [← h2]
  · split at h
    · injection h with h2
      rw [← h2]
    · injection h with h2
      rw [← h2]

/-- `domStepChain2` either leaves the requirements list unchanged or
inserts one flag of `DFILE_REQ_KEYWORDS`. -/
theorem domStepChain2_requirements (st st' : DomSt) (w : String)
    (h : domStepChain2 st w = .ok st') :
    st'.requirements = st.requirements ∨
      ∃ fl, fl ∈ DFILE_REQ_KEYWORDS ∧ st'.requirements = listInsert st.requirements fl := by
  unfold domStepChain2 at h
  split at h
  · exact requirementsStep_requirements st st' w h
  · split at h
    · injection h with h2
      left; rw [← h2]
    · split at h
      · split at h
        · injection h with h2
          left
          rw [← h2, typesStep_requirements]
        · split at h
          · left; exact constantsStep_requirements st st' w h
          · split at h
            · left; exact predicatesStep_requirements st st' w h
            · split at h
              · left; exact functionsStep_requirements st st' w h
              · injection h with h2
                left; rw [← h2]
      · injection h with h2
        left; rw [← h2]

/-- Along a successful domain parse every recorded requirement flag is one
of the four known flags. -/
theorem parse_domain_requirements_subset (tokens : List String) (d : DomainResult)
    (h : parse_domain tokens = .ok d) :
    ∀ r ∈ d.requirements, r ∈ DFILE_REQ_KEYWORDS := by
  unfold parse_domain at h
  split at h
  · cases h
  · split at h
    · cases h
    · split at h
      · cases h
      · rename_i st hst
        split at h
        · cases h
        · rename_i res hres
          injection h with h2
          have hreq : d.requirements = st.requirements := by rw [← h2]
          rw [hreq]
          refine foldlM_except_inv (fun s => ∀ r ∈ s.requirements, r ∈ DFILE_REQ_KEYWORDS)
            domStep ?_ _ initDomSt st (by intro r hr; cases hr) hst
          intro b a b' hP hstep
          unfold domStep at hstep
          rcases domStepChain2_requirements _ b' a hstep with he | ⟨fl, hfl, he⟩
          · rw [he, domStepClose_requirements, domStepChain1_requirements]
            exact hP
          · rw [he, domStepClose_requirements, domStepChain1_requirements]
            intro r hr
            rcases listInsert_mem.1 hr with h3 | rfl
            · exact hP r h3
            · exact hfl

/-- C4: after `__init__` the model's requirement set is exactly the parsed
set minus {multi-agent, unfactored-privacy} — computed before any
serialization — so neither flag is in the set the domain writer iterates,
and every remaining flag (necessarily `typing` or `strips`) is emitted. -/
theorem multiagent_flags_removed (dlines plines : List String) (p : PlanningProblem)
    (h : mkPlanningProblem dlines plines = .ok p) :
    "multi-agent" ∉ p.requirements ∧ "unfactored-privacy" ∉ p.requirements ∧
    (∀ d, parse_domain (get_file_as_array dlines) = .ok d →
      p.requirements = d.requirements.filter
        (fun r => decide (r ≠ "multi-agent") && decide (r ≠ "unfactored-privacy"))) ∧
    (∀ r ∈ p.requirements, r = "typing" ∨ r = "strips") := by
  unfold mkPlanningProblem at h
  split at h
  · cases h
  · rename_i d hd
    split at h
    · cases h
    · rename_i pr hpr
      injection h with h2
      have hreq : p.requirements = d.requirements.filter
          (fun r => decide (r ≠ "multi-agent") && decide (r ≠ "unfactored-privacy")) := by
        rw [← h2]
        rfl
      refine ⟨?_, ?_, ?_, ?_⟩
      · rw [hreq]
        intro hmem
        have h3 := (List.mem_filter.1 hmem).2
        simp at h3
      · rw [hreq]
        intro hmem
        have h3 := (List.mem_filter.1 hmem).2
        simp at h3
      · intro d2 hd2
        have : d = d2 := by
          have h4 := hd.symm.trans hd2
          injection h4
        rw [← this]
        exact hreq
      · intro r hr
        rw [hreq] at hr
        have h3 := List.mem_filter.1 hr
        have h4 := parse_domain_requirements_subset _ d hd r h3.1
        have h5 := h3.2
        simp only [Bool.and_eq_true, decide_eq_true_eq] at h5
        simp only [DFILE_REQ_KEYWORDS, List.mem_cons, List.mem_singleton] at h4
        rcases h4 with rfl | rfl | rfl | h4
        · exact Or.inl rfl
        · exact Or.inr rfl
        · exact absurd rfl h5.1
        · simp at h4
          rw [h4] at h5
          exact absurd rfl h5.2

/-- C4 (witness): on the example model the multi-agent-only flags are gone
and only `typing` survives. -/
theorem multiagent_flags_removed_witness :
    (match mkPlanningProblem exDomainLines exProblemLines with
     | .ok p => "multi-agent" ∉ p.requirements ∧ "unfactored-privacy" ∉ p.requirements
     | .error _ => False) := by
  cases hm : mkPlanningProblem exDomainLines exProblemLines with
  | error e =>
    have hok : exceptOk (mkPlanningProblem exDomainLines exProblemLines) = true := rfl
    rw [hm] at hok
    exact absurd hok (by simp [exceptOk])
  | ok p =>
    exact ⟨(multiagent_flags_removed exDomainLines exProblemLines p hm).1,
           (multiagent_flags_removed exDomainLines exProblemLines p hm).2.1⟩

/-! ## C6: `get_objects_of_type` computes the descendant closure -/

theorem allTypeNames_cons (kv : String × List String) (tl : List (String × List String)) :
    allTypeNames (kv :: tl) = insert kv.1 (kv.2.toFinset ∪ allTypeNames tl) := rfl

theorem mem_allTypeNames_of_mem (types : List (String × List String))
    (kv : String × List String) (hkv : kv ∈ types) (x : String) (hx : x ∈ kv.2) :
    x ∈ allTypeNames types := by
  induction types with
  | nil => cases hkv
  | cons hd tl ih =>
    rw [allTypeNames_cons]
    rcases List.mem_cons.1 hkv with rfl | hkv2
    · exact Finset.mem_insert_of_mem (Finset.mem_union_left _ (List.mem_toFinset.2 hx))
    · exact Finset.mem_insert_of_mem (Finset.mem_union_right _ (ih hkv2))

theorem children_subset_allTypeNames (types : List (String × List String)) (b : String) :
    childrenFinset types b ⊆ allTypeNames types := by
  unfold childrenFinset
  cases hd : dictGet types b with
  | none => simp
  | some l =>
    unfold dictGet at hd
    cases hf : types.find? (fun kv => decide (kv.1 = b)) with
    | none => rw [hf] at hd; cases hd
    | some kv =>
      rw [hf] at hd
      simp only [Option.map] at hd
      injection hd with hd2
      subst hd2
      intro x hx
      rw [List.mem_toFinset] at hx
      exact mem_allTypeNames_of_mem types kv (List.mem_of_find?_eq_some hf) x hx

theorem subset_selGrow (types : List (String × List String)) (s : Finset String) :
    s ⊆ selGrow types s :=
  Finset.subset_union_left

theorem selGrow_subset_bound (types : List (String × List String)) (t0 : String)
    (s : Finset String) (hs : s ⊆ insert t0 (allTypeNames types)) :
    selGrow types s ⊆ insert t0 (allTypeNames types) := by
  unfold selGrow
  apply Finset.union_subset hs
  intro x hx
  rcases Finset.mem_biUnion.1 hx with ⟨b, _, hxb⟩
  exact Finset.mem_insert_of_mem (children_subset_allTypeNames types b hxb)

/-- With enough fuel the `while` loop of `get_objects_of_type` reaches a
fixpoint of `selGrow`. -/
theorem selIter_fixpoint (types : List (String × List String)) (t0 : String) :
    ∀ (n : Nat) (s : Finset String), s ⊆ insert t0 (allTypeNames types) →
      (insert t0 (allTypeNames types)).card ≤ n + s.card →
      selGrow types (selIter types n s) = selIter types n s := by
  intro n
  induction n with
  | zero =>
    intro s hs hcard
    rw [Nat.zero_add] at hcard
    have heq : s = insert t0 (allTypeNames types) :=
      Finset.eq_of_subset_of_card_le hs hcard
    show selGrow types s = s
    apply Finset.Subset.antisymm
    · have h2 := selGrow_subset_bound types t0 s hs
      rw [← heq] at h2
      exact h2
    · exact subset_selGrow types s
  | succ n ih =>
    intro s hs hcard
    show selGrow types (selIter types (n + 1) s) = selIter types (n + 1) s
    unfold selIter
    split
    · rename_i hlt
      apply ih
      · exact selGrow_subset_bound types t0 s hs
      · omega
    · rename_i hnlt
      exact (Finset.eq_of_subset_of_card_le (subset_selGrow types s)
        (Nat.le_of_not_lt hnlt)).symm

theorem subset_selIter (types : List (String × List String)) :
    ∀ (n : Nat) (s : Finset String), s ⊆ selIter types n s := by
  intro n
  induction n with
  | zero => intro s; exact Finset.Subset.refl s
  | succ n ih =>
    intro s
    unfold selIter
    split
    · exact (subset_selGrow types s).trans (ih (selGrow types s))
    · exact Finset.Subset.refl s

theorem selIter_sound (types : List (String × List String)) (t0 : String) :
    ∀ (n : Nat) (s : Finset String), (∀ x ∈ s, TypeDesc types t0 x) →
      ∀ x ∈ selIter types n s, TypeDesc types t0 x := by
  intro n
  induction n with
  | zero => intro s hs x hx; exact hs x hx
  | succ n ih =>
    intro s hs x hx
    unfold selIter at hx
    split at hx
    · refine ih (selGrow types s) ?_ x hx
      intro y hy
      rcases Finset.mem_union.1 hy with hy1 | hy2
      · exact hs y hy1
      · rcases Finset.mem_biUnion.1 hy2 with ⟨b, hb, hyb⟩
        exact TypeDesc.step (hs b hb) hyb
    · exact hs x hx

theorem selIter_complete (types : List (String × List String)) (t0 x : String)
    (h : TypeDesc types t0 x) :
    x ∈ selIter types ((allTypeNames types).card + 1) {t0} := by
  have hfix : selGrow types (selIter types ((allTypeNames types).card + 1) {t0})
      = selIter types ((allTypeNames types).card + 1) {t0} := by
    apply selIter_fixpoint types t0
    · intro y hy
      rw [Finset.mem_singleton] at hy
      subst hy
      exact Finset.mem_insert_self _ _
    · have h2 := Finset.card_insert_le t0 (allTypeNames types)
      rw [Finset.card_singleton]
      omega
  induction h with
  | refl => exact subset_selIter types _ {t0} (Finset.mem_singleton_self t0)
  | step hab hchild ih =>
    rw [← hfix]
    exact Finset.mem_union_right _ (Finset.mem_biUnion.2 ⟨_, ih, hchild⟩)

/-- C6: membership in `get_objects_of_type p t` is exactly: being an object
or constant declared under a type reflexively-transitively subordinate to
`t`; on the example hierarchy `agent < object`, `robot < agent` with
`r1 - robot`, querying `agent` returns exactly `{r1}`. -/
theorem get_objects_of_type_spec :
    (∀ (p : PlanningProblem) (t o : String),
      o ∈ get_objects_of_type p t ↔
        ∃ ty, TypeDesc p.types t ty ∧
          (o ∈ lookupFinset p.objects ty ∨ o ∈ lookupFinset p.constants ty)) ∧
    get_objects_of_type exampleHierarchy "agent" = {"r1"} := by
  constructor
  · intro p t o
    unfold get_objects_of_type
    constructor
    · intro ho
      rcases Finset.mem_biUnion.1 ho with ⟨ty, hty, hoty⟩
      refine ⟨ty, ?_, Finset.mem_union.1 hoty⟩
      refine selIter_sound p.types t _ {t} ?_ ty hty
      intro x hx
      rw [Finset.mem_singleton] at hx
      subst hx
      exact TypeDesc.refl _
    · rintro ⟨ty, hdesc, hmem⟩
      exact Finset.mem_biUnion.2
        ⟨ty, selIter_complete p.types t ty hdesc, Finset.mem_union.2 hmem⟩
  · rfl

/-- C6 (witness): `r1` is returned for the query `agent`. -/
theorem get_objects_of_type_spec_witness :
    "r1" ∈ get_objects_of_type exampleHierarchy "agent" := by
  rw [get_objects_of_type_spec.2]
  exact Finset.mem_singleton_self "r1"

/-! ## C3: the classical round-trip -/

theorem dictGet_eq_none (d : List (String × List String)) (k : String) :
    dictGet d k = none ↔ ∀ kv ∈ d, kv.1 ≠ k := by
  unfold dictGet
  rw [Option.map_eq_none']
  rw [List.find?_eq_none]
  constructor
  · intro h kv hkv
    have h2 := h kv hkv
    simpa using h2
  · intro h kv hkv
    simpa using h kv hkv

theorem dictAppend_keys (d : List (String × List String)) (k v : String) :
    ∀ kv ∈ dictAppend d k v, kv.1 = k ∨ ∃ kv2 ∈ d, kv.1 = kv2.1 := by
  unfold dictAppend
  split
  · intro kv hkv
    rw [List.mem_map] at hkv
    obtain ⟨kv2, hkv2, rfl⟩ := hkv
    right
    refine ⟨kv2, hkv2, ?_⟩
    split <;> rfl
  · intro kv hkv
    rcases List.mem_append.1 hkv with h | h
    · right
      exact ⟨kv, h, rfl⟩
    · left
      rw [List.mem_singleton] at h
      subst h
      rfl

theorem dictGet_dictAppend_none (d : List (String × List String)) (k v k' : String)
    (hne : k ≠ k') (hd : dictGet d k' = none) :
    dictGet (dictAppend d k v) k' = none := by
  rw [dictGet_eq_none] at hd ⊢
  intro kv hkv
  rcases dictAppend_keys d k v kv hkv with h | ⟨kv2, hkv2, h⟩
  · rw [h]
    exact hne
  · rw [h]
    exact hd kv2 hkv2

/-- A keyword token whose tail is `agent` is the token `:agent` itself. -/
theorem colon_agent_token (w : String) (h1 : strStartsWith w ':' = true)
    (h2 : strDrop1 w = "agent") : w = ":agent" := by
  obtain ⟨d⟩ := w
  unfold strStartsWith at h1
  cases d with
  | nil => simp at h1
  | cons c tail =>
    simp only [decide_eq_true_eq] at h1
    subst h1
    unfold strDrop1 at h2
    have h3 : tail = "agent".data := congrArg String.data h2
    rw [show (String.mk (':' :: tail)) = String.mk (':' :: "agent".data) from by rw [h3]]

/-- The bucket walk never creates an `agent` key unless the body contains
the literal token `:agent`. -/
theorem bucket_fold_no_agent :
    ∀ (ws : List String) (kw : String) (d : List (String × List String)),
      (∀ w ∈ ws, w ≠ ":agent") → kw ≠ "agent" → dictGet d "agent" = none →
      dictGet ((ws.foldl
        (fun kwd w =>
          if strStartsWith w ':' then (strDrop1 w, kwd.2)
          else (kwd.1, dictAppend kwd.2 kwd.1 w))
        (kw, d)).2) "agent" = none := by
  intro ws
  induction ws with
  | nil => intro kw d _ _ hd; exact hd
  | cons w rest ih =>
    intro kw d hws hkw hd
    rw [List.foldl_cons]
    by_cases hsw : strStartsWith w ':' = true
    · rw [if_pos hsw]
      refine ih (strDrop1 w) d (fun x hx => hws x (List.mem_cons_of_mem w hx)) ?_ hd
      intro hcontra
      exact hws w (List.mem_cons_self w rest) (colon_agent_token w hsw hcontra)
    · rw [if_neg hsw]
      refine ih kw (dictAppend d kw w) (fun x hx => hws x (List.mem_cons_of_mem w hx)) hkw ?_
      exact dictGet_dictAppend_none d kw w "agent" hkw hd

theorem actionBuckets_no_agent (ws : List String) (h : ∀ w ∈ ws, w ≠ ":agent") :
    dictGet (actionBuckets ws) "agent" = none := by
  unfold actionBuckets
  exact bucket_fold_no_agent ws "" [] h (by decide) rfl

theorem processActionBody_missing_agent (type_list : List String) (action : List String)
    (h : ∀ w ∈ action, w ≠ ":agent") :
    exceptOk (processActionBody type_list action) = false := by
  unfold processActionBody
  split
  · rfl
  · have hnone : dictGet (actionBuckets (action.drop 2)) "agent" = none := by
      apply actionBuckets_no_agent
      intro w hw
      exact h w (List.drop_subset 2 action hw)
    rw [hnone]
    rfl

/-- The second pass of `parse_domain` fatally rejects every buffered
action body that contains no `:agent` token. -/
theorem processAction_missing_agent (type_list : List String) (action : List String)
    (h : ∀ w ∈ action, w ≠ ":agent") :
    exceptOk (processAction type_list action) = false := by
  unfold processAction
  split
  · rfl
  · apply processActionBody_missing_agent
    intro w hw
    apply h
    by_cases hdash : action.headD "" = "-"
    · rw [if_pos hdash] at hw
      exact List.drop_subset 2 action hw
    · rw [if_neg hdash] at hw
      exact hw

/-- C3 (counterexample): the example multi-agent domain/problem parses
successfully into a model, but serializing that model to classical form
and reparsing the emitted text with the repository's own parser does not
yield any model, let alone an identical one: the emitted classical
actions contain no `:agent` entry, and the domain parser subscripts the
agent bucket unconditionally, so the reparse aborts. -/
theorem classical_round_trip_counterexample :
    exceptOk (mkPlanningProblem exDomainLines exProblemLines) = true ∧
    classicalRoundTrip exDomainLines exProblemLines
      = .error "TypeError: agent bucket missing" :=
  ⟨rfl, rfl⟩

/-- C3 (amended): the round-trip contract fails at the parser's second
pass.  Universally, every buffered action body containing no `:agent`
token is fatally rejected (the source subscripts the agent bucket
unconditionally); the classical text emitted by `write_pddl_domain`
gives its actions no `:agent` entry, so on the example multi-agent
domain and problem — whose model contains an action — the original parse
succeeds while reparsing the emitted text aborts with exactly the
agent-bucket error instead of yielding an identical model. -/
theorem classical_round_trip_amended :
    (∀ (type_list action : List String), (∀ w ∈ action, w ≠ ":agent") →
      exceptOk (processAction type_list action) = false) ∧
    (mkPlanningProblem exDomainLines exProblemLines).map
        (fun p => decide (p.actions ≠ [])) = .ok true ∧
    Except.bind (mkPlanningProblem exDomainLines exProblemLines)
        (fun p => parse_domain (get_file_as_array [write_pddl_domain p]))
      = .error "TypeError: agent bucket missing" :=
  ⟨fun type_list action h => processAction_missing_agent type_list action h, rfl, rfl⟩

/-- C3 (witness): a concrete classical action body — the token form
emitted by the writer, with no `:agent` — is rejected by the second
pass. -/
theorem classical_round_trip_amended_witness :
    exceptOk (processAction ["object"]
      [":action", "move", ":parameters", "(", ")", ":precondition", ":effect"]) = false :=
  classical_round_trip_amended.1 ["object"]
    [":action", "move", ":parameters", "(", ")", ":precondition", ":effect"] (by decide)

end MAPV
